import Mathlib

/-
  Verification of the Filesys repository: a sandboxed read-only file server.

  The embedding models the two source files that carry the logic:
  - src/resources.py : configuration of the root directory (BASE_DIR),
    list_files() and read_file(filename);
  - src/server.py : the resource adapter binding the identifiers
    files://list and files://read to the two accessor operations.

  Modelling choices:
  - A filesystem is a tree of nodes (directories with named entries, regular
    files carrying raw bytes and an mtime, and symbolic links carrying a
    target string), rooted at the POSIX root "/".
  - Paths are lists of components of an absolute POSIX path.
  - pathlib joining, the parents sequence and Path.resolve are modelled at
    the component level.  resolve follows symlinks and collapses ".."
    segments, in non-strict mode: components that do not exist are kept
    without error, exactly as Path.resolve(strict=False) behaves.  The
    symlink-expansion budget models the loop detection of the realpath
    algorithm; exceeding it raises, which the accessor catches into an
    error envelope.
  - Python exceptions inside the accessor are modelled by the error branches
    of the match; the try/except of the source converts every one of them
    into the error envelope, so both operations are total functions into
    envelopes.
  - Response dicts are modelled as association lists from keys to a small
    value type, keeping the exact key structure of the source.
-/

namespace Filesys

/-- Components of an absolute POSIX path, outermost first. -/
abbrev PathC := List String

/-- Split a character list at every slash, keeping empty groups. -/
def splitSlash (cs : List Char) : List String :=
  (cs.foldr
    (fun c groups =>
      if c = '/' then [] :: groups
      else
        match groups with
        | g :: gs => (c :: g) :: gs
        | [] => [[c]])
    [[]]).map fun g => String.mk g

/-- The components of a path string as pathlib parses them: split on
slashes, drop empty components and single-dot components.  Double-dot
components are kept; resolve collapses them later, as in pathlib. -/
def parseParts (s : String) : List String :=
  (splitSlash s.data).filter fun p => p != "" && p != "."

/-- Whether a path string is absolute (starts with a slash), as in
PurePosixPath. -/
def isAbs (s : String) : Bool :=
  match s.data with
  | c :: _ => c == '/'
  | [] => false

/-- Model of the pathlib join BASE_DIR / filename: an absolute filename
replaces the base, a relative one is appended component-wise. -/
def joinPath (base : PathC) (s : String) : PathC :=
  if isAbs s then parseParts s else base ++ parseParts s

/-- Model of the pathlib parents sequence of an absolute path: every proper
prefix of the component list (the root itself is the empty prefix).  Only
membership in this sequence is used by the source. -/
def pathParents (p : PathC) : List PathC :=
  (List.range p.length).map fun n => p.take n

/-- A filesystem node: a directory with named children, a regular file with
raw byte content and a modification time, or a symbolic link. -/
inductive Node where
  | dir (entries : List (String × Node))
  | file (data : List Nat) (mtime : Int)
  | symlink (target : String)

/-- A filesystem: the node mounted at the POSIX root. -/
structure FS where
  root : Node

/-- Walk a symlink-free component path down from a node.  Used by the
resolver only on prefixes it has already canonicalised. -/
def lookupNode : Node → PathC → Option Node
  | n, [] => some n
  | Node.dir es, c :: rest =>
    match es.lookup c with
    | some child => lookupNode child rest
    | none => none
  | Node.file _ _, _ :: _ => none
  | Node.symlink _, _ :: _ => none

/-- Message of the exception raised by the realpath algorithm when the
symlink budget is exhausted; read_file catches it into an envelope. -/
def symlinkLoopMsg : String := "Symlink loop"

/-- Error message for a missing target, standing for the text of the
FileNotFoundError of the source.  Only its difference from the fixed
Access denied message matters to the claims. -/
def noSuchFile : String := "No such file or directory"

/-- Error message standing for the IsADirectoryError text of the source. -/
def isADirectory : String := "Is a directory"

/-- Error message standing for the UnicodeDecodeError text of the source. -/
def decodeFailure : String := "UnicodeDecodeError"

/-- The fixed containment-violation message of read_file in the source. -/
def accessDenied : String := "Access denied"

/-- One symlink-free pass of the realpath algorithm in non-strict mode,
processing the pending components left to right over an already-canonical
prefix acc: a double-dot pops the prefix, any other component - existing
or not - is appended, and the pass stops the moment it meets an existing
symlink component, returning the prefix to restart from and the expanded
pending components. -/
def resolveStep (fs : FS) : PathC → List String → PathC ⊕ (PathC × List String)
  | acc, [] => Sum.inl acc
  | acc, c :: rest =>
    if c = ".." then
      resolveStep fs acc.dropLast rest
    else
      match lookupNode fs.root (acc ++ [c]) with
      | some (Node.symlink t) =>
        Sum.inr (if isAbs t then [] else acc, parseParts t ++ rest)
      | _ => resolveStep fs (acc ++ [c]) rest

/-- Outer loop of the realpath algorithm: each symlink expansion consumes
one unit of the link budget; exhausting the budget raises the loop error
that the accessor catches into an envelope. -/
def resolveLoop (fs : FS) : Nat → PathC → List String → Except String PathC
  | links, acc, rest =>
    match resolveStep fs acc rest with
    | Sum.inl done => Except.ok done
    | Sum.inr (acc1, rest1) =>
      match links with
      | 0 => Except.error symlinkLoopMsg
      | links1 + 1 => resolveLoop fs links1 acc1 rest1

/-- The symlink-expansion budget of the realpath algorithm. -/
def MAXLINKS : Nat := 40

/-- Model of target_path.resolve() on an absolute component path: symlinks
followed, double-dots collapsed, nonexistent suffixes kept (strict=False). -/
def resolvePath (fs : FS) (p : PathC) : Except String PathC :=
  resolveLoop fs MAXLINKS [] p

/-- UTF-8 encoding of one character. -/
def utf8EncodeChar (c : Char) : List Nat :=
  let n := c.toNat
  if n < 0x80 then [n]
  else if n < 0x800 then [0xC0 + n / 0x40, 0x80 + n % 0x40]
  else if n < 0x10000 then
    [0xE0 + n / 0x1000, 0x80 + n / 0x40 % 0x40, 0x80 + n % 0x40]
  else
    [0xF0 + n / 0x40000, 0x80 + n / 0x1000 % 0x40, 0x80 + n / 0x40 % 0x40,
      0x80 + n % 0x40]

/-- UTF-8 encoding of a string as a byte list. -/
def utf8Encode (s : String) : List Nat :=
  (s.data.map utf8EncodeChar).flatten

/-- Whether a byte is a UTF-8 continuation byte. -/
def isCont (b : Nat) : Prop := 0x80 ≤ b ∧ b < 0xC0

instance (b : Nat) : Decidable (isCont b) := by
  unfold isCont; infer_instance

/-- Strict UTF-8 decoder on byte lists, modelling the strict utf-8 codec
used by read_text: continuation bytes are checked and overlong encodings
and surrogates are rejected, so failure models UnicodeDecodeError. -/
def utf8DecodeAux : List Nat → Option (List Char)
  | [] => some []
  | b :: rest =>
    if b < 0x80 then
      (utf8DecodeAux rest).map fun cs => Char.ofNat b :: cs
    else if b < 0xC2 then none
    else if b < 0xE0 then
      match rest with
      | b1 :: rest1 =>
        if isCont b1 then
          (utf8DecodeAux rest1).map fun cs =>
            Char.ofNat ((b - 0xC0) * 0x40 + (b1 - 0x80)) :: cs
        else none
      | [] => none
    else if b < 0xF0 then
      match rest with
      | b1 :: b2 :: rest2 =>
        if isCont b1 ∧ isCont b2 ∧ (b = 0xE0 → 0xA0 ≤ b1) ∧ (b = 0xED → b1 < 0xA0) then
          (utf8DecodeAux rest2).map fun cs =>
            Char.ofNat ((b - 0xE0) * 0x1000 + (b1 - 0x80) * 0x40 + (b2 - 0x80)) :: cs
        else none
      | _ => none
    else if b < 0xF5 then
      match rest with
      | b1 :: b2 :: b3 :: rest3 =>
        if isCont b1 ∧ isCont b2 ∧ isCont b3 ∧ (b = 0xF0 → 0x90 ≤ b1) ∧ (b = 0xF4 → b1 < 0x90) then
          (utf8DecodeAux rest3).map fun cs =>
            Char.ofNat
              ((b - 0xF0) * 0x40000 + (b1 - 0x80) * 0x1000 + (b2 - 0x80) * 0x40
                + (b3 - 0x80)) :: cs
        else none
      | _ => none
    else none

/-- UTF-8 decoding of a byte list to a string; none models a decode error. -/
def utf8Decode (bs : List Nat) : Option String :=
  (utf8DecodeAux bs).map fun cs => String.mk cs

/-- Values occurring in the response dicts of the source: strings, the
integer size, the list of file names, and the metadata sub-dict with its
size and modified fields. -/
inductive JValue where
  | str (s : String)
  | nat (n : Nat)
  | strList (xs : List String)
  | metaObj (size : Nat) (modified : Int)
deriving DecidableEq

/-- A response dict of the source, as an association list of its keys. -/
abbrev Envelope := List (String × JValue)

/-- The error envelope built by the except branches and the containment
check of the source. -/
def mkError (s : String) : Envelope := [("error", JValue.str s)]

/-- Model of name.startswith applied with a dot. -/
def startsWithDot (s : String) : Bool :=
  match s.data with
  | c :: _ => c == '.'
  | [] => false

/-- Model of the is_file test of pathlib on an absolute path: stat follows
symlinks, so the path is resolved and the result must be a regular file;
any resolution failure makes is_file return false. -/
def isFileAt (fs : FS) (p : PathC) : Bool :=
  match resolvePath fs p with
  | Except.ok q =>
    match lookupNode fs.root q with
    | some (Node.file _ _) => true
    | _ => false
  | Except.error _ => false

/-- Embedding of list_files of src/resources.py: enumerate the direct
children of the base directory, keep the names of those that are regular
files and do not start with a dot; enumeration failures (missing base,
base not a directory) become error envelopes through the except branch. -/
def list_files (fs : FS) (baseDir : PathC) : Envelope :=
  match lookupNode fs.root baseDir with
  | some (Node.dir entries) =>
    [("files", JValue.strList
      ((entries.filter fun e =>
        isFileAt fs (baseDir ++ [e.1]) && !startsWithDot e.1).map Prod.fst))]
  | some _ => mkError isADirectory
  | none => mkError noSuchFile

/-- Embedding of read_file of src/resources.py: join the client filename to
the base, resolve fully, refuse with the fixed Access denied envelope
whenever the base directory is not among the parents of the resolved
target, otherwise read the bytes, decode them as UTF-8 and stat size and
mtime; every raised exception becomes an error envelope through the
except branch.  The resolver never yields a path ending at a symlink, so
the symlink branch of the final lookup is unreachable and is given the
missing-file message. -/
def read_file (fs : FS) (baseDir : PathC) (filename : String) : Envelope :=
  match resolvePath fs (joinPath baseDir filename) with
  | Except.error e => mkError e
  | Except.ok target =>
    if baseDir ∉ pathParents target then
      mkError accessDenied
    else
      match lookupNode fs.root target with
      | none => mkError noSuchFile
      | some (Node.dir _) => mkError isADirectory
      | some (Node.symlink _) => mkError noSuchFile
      | some (Node.file data mtime) =>
        match utf8Decode data with
        | none => mkError decodeFailure
        | some content =>
          [("content", JValue.str content),
            ("metadata", JValue.metaObj data.length mtime)]

/-- Embedding of the tilde expansion performed on the configured directory
string: a leading bare tilde component is replaced by the home directory. -/
def expanduser (home : String) (s : String) : String :=
  if s = "~" then home
  else
    match s.data with
    | '~' :: '/' :: rest => home ++ String.mk ('/' :: rest)
    | _ => s

/-- Embedding of the BASE_DIR initialization of src/resources.py, given the
already-parsed directory value of the configuration file: the value is
tilde-expanded and resolved non-strictly against the working directory.
No existence check is performed by the source. -/
def initBaseDir (fs : FS) (home : String) (cwd : PathC) (directory : String) :
    Except String PathC :=
  resolvePath fs (joinPath cwd (expanduser home directory))

/-- Embedding of list_files_resource of src/server.py: the adapter bound to
the files list identifier forwards to the accessor unchanged. -/
def list_files_resource (fs : FS) (baseDir : PathC) : Envelope :=
  list_files fs baseDir

/-- Embedding of read_file_resource of src/server.py: the adapter bound to
the files read identifier extracts the filename parameter and forwards to
the accessor unchanged. -/
def read_file_resource (fs : FS) (baseDir : PathC) (filename : String) : Envelope :=
  read_file fs baseDir filename

/-- A request addressed to one of the two resource identifiers. -/
inductive Request where
  | list
  | read (filename : String)

/-- Dispatch of one request to the corresponding adapter function. -/
def handle (fs : FS) (baseDir : PathC) : Request → Envelope
  | Request.list => list_files_resource fs baseDir
  | Request.read f => read_file_resource fs baseDir f

/-- One request-response cycle.  The handlers perform only reading
filesystem calls (iterdir, is_file, resolve, open for reading, stat), so
the filesystem state after the call is the state before it. -/
def serve (fs : FS) (baseDir : PathC) (r : Request) : Envelope × FS :=
  (handle fs baseDir r, fs)

/-- Repeated serving of the same request, threading the filesystem state
returned by each cycle into the next. -/
def serveMany (fs : FS) (baseDir : PathC) (r : Request) : Nat → List Envelope
  | 0 => []
  | n + 1 =>
    ((serve fs baseDir r).1) :: serveMany (serve fs baseDir r).2 baseDir r n

/-- An envelope of error shape: exactly the error key, holding a string. -/
def isErrorEnv (env : Envelope) : Prop :=
  ∃ s, env = [("error", JValue.str s)]

/-- An envelope of read-success shape: the content and metadata keys. -/
def isReadSuccessEnv (env : Envelope) : Prop :=
  ∃ c sz m, env = [("content", JValue.str c), ("metadata", JValue.metaObj sz m)]

/-- An envelope of list-success shape: exactly the files key. -/
def isListSuccessEnv (env : Envelope) : Prop :=
  ∃ xs, env = [("files", JValue.strList xs)]

/-- Directory entries of the demo sandbox directory srv used by the
witnesses: a visible file, a hidden file, a subdirectory with a nested
file, and a symlink pointing outside the sandbox. -/
def srvEntries : List (String × Node) :=
  [("test.txt", Node.file (utf8Encode "hello") 1700000000),
    (".secret", Node.file (utf8Encode "top secret") 1700000001),
    ("sub", Node.dir [("inner.txt", Node.file (utf8Encode "inner") 1700000002)]),
    ("link.txt", Node.symlink "../outside.txt")]

/-- Demo filesystem: the sandbox directory srv plus a file outside it. -/
def demoFS : FS :=
  ⟨Node.dir [("srv", Node.dir srvEntries),
    ("outside.txt", Node.file (utf8Encode "outside") 1700000003)]⟩

/-- The demo filesystem with the outside file removed; it differs from
demoFS only outside the sandbox. -/
def demoFS2 : FS := ⟨Node.dir [("srv", Node.dir srvEntries)]⟩

/-- The configured root directory of the demo filesystem. -/
def demoBase : PathC := ["srv"]

/-- A filesystem whose root directory is empty, for the initialization
counterexample. -/
def emptyRootFS : FS := ⟨Node.dir []⟩

/-
  Theorems.  The strict-descendant relation of the spec is phrased on
  component paths as: the root is a prefix of the target and differs from
  it.  The first lemma identifies it with membership in the parents
  sequence that the source tests.
-/

/-- Membership in the modelled parents sequence is exactly the proper
prefix relation on component paths. -/
theorem mem_pathParents_iff (b p : PathC) : b ∈ pathParents p ↔ b <+: p ∧ b ≠ p := by
  unfold pathParents
  simp only [List.mem_map, List.mem_range]
  constructor
  · rintro ⟨n, hn, rfl⟩
    constructor
    · apply List.prefix_iff_eq_take.mpr
      rw [List.length_take]
      rw [Nat.min_eq_left (Nat.le_of_lt hn)]
    · intro h
      have hlen := congrArg List.length h
      rw [List.length_take] at hlen
      omega
  · rintro ⟨hpre, hne⟩
    refine ⟨b.length, ?_, (List.prefix_iff_eq_take.mp hpre).symm⟩
    rcases Nat.lt_or_ge b.length p.length with h | h
    · exact h
    · exfalso
      apply hne
      rw [List.prefix_iff_eq_take.mp hpre, List.take_of_length_le h]

/-- Escaping resolutions are answered with the fixed denial envelope:
shared by the containment and non-leak theorems. -/
theorem read_file_denied_of_escape (fs : FS) (base : PathC) (f : String) (target : PathC)
    (hres : resolvePath fs (joinPath base f) = Except.ok target)
    (hesc : ¬(base <+: target ∧ base ≠ target)) :
    read_file fs base f = mkError accessDenied := by
  have hnp : base ∉ pathParents target := fun hm =>
    hesc ((mem_pathParents_iff base target).mp hm)
  unfold read_file
  simp only [hres, hnp, not_false_eq_true, if_pos]

/-- Successful resolutions strictly inside the root are read, decoded and
stated: shared by the round-trip, hidden-name and nested-name theorems. -/
theorem read_file_success_core (fs : FS) (base : PathC) (f C : String)
    (target : PathC) (data : List Nat) (mtime : Int)
    (hres : resolvePath fs (joinPath base f) = Except.ok target)
    (hin : base <+: target ∧ base ≠ target)
    (hnode : lookupNode fs.root target = some (Node.file data mtime))
    (hdec : utf8Decode data = some C) :
    read_file fs base f =
      [("content", JValue.str C), ("metadata", JValue.metaObj data.length mtime)] := by
  have hp : base ∈ pathParents target := (mem_pathParents_iff base target).mpr hin
  unfold read_file
  simp only [hres, hnode, hdec]
  rw [if_neg (by simpa using hp)]

/-- Names starting with a dot never appear in a files listing: shared by
the hidden-asymmetry theorem. -/
theorem hidden_not_in_list (fs : FS) (base : PathC) (f : String)
    (hdot : startsWithDot f = true) (names : List String)
    (hlist : list_files fs base = [("files", JValue.strList names)]) :
    f ∉ names := by
  intro hmem
  unfold list_files at hlist
  cases hbase : lookupNode fs.root base with
  | none =>
    rw [hbase] at hlist
    simp [mkError] at hlist
  | some node =>
    cases node with
    | dir entries =>
      rw [hbase] at hlist
      simp only [List.cons.injEq, Prod.mk.injEq, JValue.strList.injEq, and_true,
        true_and] at hlist
      rw [← hlist] at hmem
      rcases List.mem_map.mp hmem with ⟨e, he, hfst⟩
      have hpred := (List.mem_filter.mp he).2
      rw [hfst, hdot] at hpred
      simp at hpred
    | file data0 mtime0 =>
      rw [hbase] at hlist
      simp [mkError] at hlist
    | symlink t0 =>
      rw [hbase] at hlist
      simp [mkError] at hlist

/-- C1: for every filename whose fully resolved candidate path (symlinks
followed, double-dot segments collapsed) is not a strict descendant of
the root directory - double-dot traversals, absolute paths, symlink
escapes and the root directory itself - read_file returns the error
envelope carrying exactly the Access denied message; the branch returns
before any lookup of file data, so no file bytes are read. -/
theorem read_file_containment (fs : FS) (base : PathC) (f : String) (target : PathC)
    (hres : resolvePath fs (joinPath base f) = Except.ok target)
    (hesc : ¬(base <+: target ∧ base ≠ target)) :
    read_file fs base f = mkError accessDenied :=
  read_file_denied_of_escape fs base f target hres hesc

/-- C1 witness: a double-dot traversal out of the demo sandbox resolves to
the outside file and is denied. -/
theorem read_file_containment_witness :
    read_file demoFS demoBase "../outside.txt" = mkError accessDenied :=
  read_file_containment demoFS demoBase "../outside.txt" ["outside.txt"] rfl (by decide)

/-- C7: when the resolved path of a filename escapes containment, the
answer is the one fixed denial envelope, identical across any two
filesystems in which the filename resolves to the same escaping target -
in particular across runs differing only in whether that target exists or
what it contains - so the response reveals nothing about the world
outside the root. -/
theorem read_file_no_leak (fs1 fs2 : FS) (base : PathC) (f : String) (target : PathC)
    (h1 : resolvePath fs1 (joinPath base f) = Except.ok target)
    (h2 : resolvePath fs2 (joinPath base f) = Except.ok target)
    (hesc : ¬(base <+: target ∧ base ≠ target)) :
    read_file fs1 base f = mkError accessDenied ∧
    read_file fs1 base f = read_file fs2 base f := by
  have e1 := read_file_denied_of_escape fs1 base f target h1 hesc
  have e2 := read_file_denied_of_escape fs2 base f target h2 hesc
  exact ⟨e1, e1.trans e2.symm⟩

/-- C7 witness: the traversal is answered identically whether the escaping
target file exists (demoFS) or not (demoFS2). -/
theorem read_file_no_leak_witness :
    read_file demoFS demoBase "../outside.txt" = mkError accessDenied ∧
    read_file demoFS demoBase "../outside.txt" = read_file demoFS2 demoBase "../outside.txt" :=
  read_file_no_leak demoFS demoFS2 demoBase "../outside.txt" ["outside.txt"]
    rfl rfl (by decide)

/-- C2 counterexample: on a filesystem with an empty root directory, the
configured directory /data does not exist, yet initialization succeeds
with the resolved path instead of raising: Path.resolve in its default
non-strict mode checks nothing, and the source performs no existence
check of its own, so there is no fail-fast behaviour. -/
theorem initBaseDir_no_failfast :
    initBaseDir emptyRootFS "/home/user" [] "/data" = Except.ok ["data"] ∧
    lookupNode emptyRootFS.root ["data"] = none :=
  ⟨rfl, rfl⟩

/-- C2 amended: initialization resolves the configured path without any
existence check and succeeds even when the resolved root does not exist;
the failure surfaces only when an operation runs, list_files answering
the missing-directory error envelope instead of raising at start-up. -/
theorem initBaseDir_deferred_failure (fs : FS) (home : String) (cwd : PathC)
    (directory : String) (p : PathC)
    (_hinit : initBaseDir fs home cwd directory = Except.ok p)
    (hmiss : lookupNode fs.root p = none) :
    list_files fs p = mkError noSuchFile := by
  unfold list_files
  simp only [hmiss]

/-- C2 amended witness: with the empty filesystem and configured directory
/data, initialization succeeds and the first listing reports the missing
directory. -/
theorem initBaseDir_deferred_failure_witness :
    list_files emptyRootFS ["data"] = mkError noSuchFile :=
  initBaseDir_deferred_failure emptyRootFS "/home/user" [] "/data" ["data"] rfl rfl

/-- C3: a regular file placed directly under the root whose bytes are the
UTF-8 encoding of a content string is read back exactly: success envelope
with that content, size equal to the byte length of the content, and
modified equal to the mtime of the file. -/
theorem read_file_roundtrip (fs : FS) (base : PathC) (name C : String)
    (data : List Nat) (mtime : Int)
    (hres : resolvePath fs (joinPath base name) = Except.ok (base ++ [name]))
    (hnode : lookupNode fs.root (base ++ [name]) = some (Node.file data mtime))
    (henc : data = utf8Encode C)
    (hdec : utf8Decode data = some C) :
    read_file fs base name =
      [("content", JValue.str C),
        ("metadata", JValue.metaObj (utf8Encode C).length mtime)] := by
  have hin : base <+: base ++ [name] ∧ base ≠ base ++ [name] := by
    constructor
    · exact ⟨[name], rfl⟩
    · intro h
      have hlen := congrArg List.length h
      simp at hlen
  have hmain := read_file_success_core fs base name C (base ++ [name]) data mtime
    hres hin hnode hdec
  rw [hmain, henc]

/-- C3 witness: the hello file directly under the demo sandbox is read back
with content hello, size 5 and its mtime. -/
theorem read_file_roundtrip_witness :
    read_file demoFS demoBase "test.txt" =
      [("content", JValue.str "hello"),
        ("metadata", JValue.metaObj (utf8Encode "hello").length 1700000000)] :=
  read_file_roundtrip demoFS demoBase "test.txt" "hello"
    (utf8Encode "hello") 1700000000 rfl rfl rfl (by decide)

/-- C5: read_file applies only the containment check and no hidden-name
filter: a filename starting with a dot that resolves to a regular UTF-8
file strictly inside the root is read back in a success envelope, even
though the very same name never appears in the files of list_files. -/
theorem read_file_hidden_asymmetry (fs : FS) (base : PathC) (f C : String)
    (target : PathC) (data : List Nat) (mtime : Int)
    (hdot : startsWithDot f = true)
    (hres : resolvePath fs (joinPath base f) = Except.ok target)
    (hin : base <+: target ∧ base ≠ target)
    (hnode : lookupNode fs.root target = some (Node.file data mtime))
    (hdec : utf8Decode data = some C) :
    read_file fs base f =
      [("content", JValue.str C), ("metadata", JValue.metaObj data.length mtime)] ∧
    ∀ names, list_files fs base = [("files", JValue.strList names)] → f ∉ names :=
  ⟨read_file_success_core fs base f C target data mtime hres hin hnode hdec,
    fun names hlist => hidden_not_in_list fs base f hdot names hlist⟩

/-- C5 witness: the hidden file of the demo sandbox is read back although
every listing excludes its name. -/
theorem read_file_hidden_asymmetry_witness :
    read_file demoFS demoBase ".secret" =
      [("content", JValue.str "top secret"),
        ("metadata", JValue.metaObj (utf8Encode "top secret").length 1700000001)] ∧
    ∀ names, list_files demoFS demoBase = [("files", JValue.strList names)] →
      ".secret" ∉ names :=
  read_file_hidden_asymmetry demoFS demoBase ".secret" "top secret"
    ["srv", ".secret"] (utf8Encode "top secret") 1700000001
    rfl rfl (by decide) rfl (by decide)

/-- C10: read_file accepts multi-component filenames that list_files never
surfaces: a filename containing a path separator that resolves to a
regular UTF-8 file strictly inside the root, at any depth, is read back
in a success envelope. -/
theorem read_file_nested_path (fs : FS) (base : PathC) (f C : String)
    (target : PathC) (data : List Nat) (mtime : Int)
    (_hsep : f.data.contains '/' = true)
    (hres : resolvePath fs (joinPath base f) = Except.ok target)
    (hin : base <+: target ∧ base ≠ target)
    (hnode : lookupNode fs.root target = some (Node.file data mtime))
    (hdec : utf8Decode data = some C) :
    read_file fs base f =
      [("content", JValue.str C), ("metadata", JValue.metaObj data.length mtime)] :=
  read_file_success_core fs base f C target data mtime hres hin hnode hdec

/-- C10 witness: the nested file of the demo sandbox is read through the
separator-containing filename. -/
theorem read_file_nested_path_witness :
    read_file demoFS demoBase "sub/inner.txt" =
      [("content", JValue.str "inner"),
        ("metadata", JValue.metaObj (utf8Encode "inner").length 1700000002)] :=
  read_file_nested_path demoFS demoBase "sub/inner.txt" "inner"
    ["srv", "sub", "inner.txt"] (utf8Encode "inner") 1700000002
    (by decide) rfl (by decide) rfl (by decide)

/-- C4: list_files enumerates only the direct children of the root
directory, and a name appears among the returned files exactly when that
child is a regular file - in the symlink-following sense of the is_file
test of the source - whose name does not start with a dot; the names of a
directory being pairwise distinct, the returned names are pairwise
distinct as well, so each visible regular file appears exactly once while
hidden files and subdirectories are absent. -/
theorem list_files_filter_spec (fs : FS) (base : PathC) (entries : List (String × Node))
    (hdir : lookupNode fs.root base = some (Node.dir entries))
    (hnd : (entries.map Prod.fst).Nodup) :
    ∃ names : List String,
      list_files fs base = [("files", JValue.strList names)] ∧
      names.Nodup ∧
      ∀ n : String, n ∈ names ↔
        ((∃ nd, (n, nd) ∈ entries) ∧ isFileAt fs (base ++ [n]) = true ∧
          startsWithDot n = false) := by
  refine ⟨(entries.filter fun e =>
      isFileAt fs (base ++ [e.1]) && !startsWithDot e.1).map Prod.fst, ?_, ?_, ?_⟩
  · unfold list_files
    rw [hdir]
  · exact hnd.sublist (List.Sublist.map Prod.fst (List.filter_sublist entries))
  · intro n
    constructor
    · intro hmem
      rcases List.mem_map.mp hmem with ⟨e, he, hfst⟩
      rcases List.mem_filter.mp he with ⟨hent, hpred⟩
      rw [hfst] at hpred
      rcases Bool.and_eq_true_iff.mp hpred with ⟨hf, hd⟩
      refine ⟨⟨e.2, ?_⟩, hf, ?_⟩
      · rw [← hfst]
        exact hent
      · rcases hb : startsWithDot n with _ | _
        · rfl
        · rw [hb] at hd
          exact absurd hd (by decide)
    · rintro ⟨⟨nd, hmem⟩, hf, hd⟩
      apply List.mem_map.mpr
      refine ⟨(n, nd), List.mem_filter.mpr ⟨hmem, ?_⟩, rfl⟩
      rw [hf, hd]
      rfl

/-- C4 witness: in the demo sandbox only the visible plain file and the
symlink resolving to a regular file are listed, each exactly once, and
the characterisation holds for every name. -/
theorem list_files_filter_spec_witness :
    ∃ names : List String,
      list_files demoFS demoBase = [("files", JValue.strList names)] ∧
      names.Nodup ∧
      ∀ n : String, n ∈ names ↔
        ((∃ nd, (n, nd) ∈ srvEntries) ∧ isFileAt demoFS (demoBase ++ [n]) = true ∧
          startsWithDot n = false) :=
  list_files_filter_spec demoFS demoBase srvEntries rfl (by decide)

/-- An error envelope never coincides with a read-success envelope: they
hold a different number of keys. -/
theorem not_error_and_read (env : Envelope) :
    ¬(isErrorEnv env ∧ isReadSuccessEnv env) := by
  rintro ⟨⟨s, hs⟩, c, sz, m, hc⟩
  rw [hs] at hc
  have hlen := congrArg List.length hc
  simp at hlen

/-- An error envelope never coincides with a list-success envelope: their
keys differ. -/
theorem not_error_and_list (env : Envelope) :
    ¬(isErrorEnv env ∧ isListSuccessEnv env) := by
  rintro ⟨⟨s, hs⟩, xs, hx⟩
  rw [hs] at hx
  simp [mkError] at hx

/-- Every read_file result is an envelope of error shape or of
read-success shape: exhaustion of all branches of the source. -/
theorem read_file_shape (fs : FS) (base : PathC) (f : String) :
    isErrorEnv (read_file fs base f) ∨ isReadSuccessEnv (read_file fs base f) := by
  unfold read_file
  split
  · exact Or.inl ⟨_, rfl⟩
  · split
    · exact Or.inl ⟨_, rfl⟩
    · split
      · exact Or.inl ⟨_, rfl⟩
      · exact Or.inl ⟨_, rfl⟩
      · exact Or.inl ⟨_, rfl⟩
      · split
        · exact Or.inl ⟨_, rfl⟩
        · exact Or.inr ⟨_, _, _, rfl⟩

/-- Every list_files result is an envelope of error shape or of
list-success shape: exhaustion of all branches of the source. -/
theorem list_files_shape (fs : FS) (base : PathC) :
    isErrorEnv (list_files fs base) ∨ isListSuccessEnv (list_files fs base) := by
  unfold list_files
  split
  · exact Or.inr ⟨_, rfl⟩
  · exact Or.inl ⟨_, rfl⟩
  · exact Or.inl ⟨_, rfl⟩

/-- C6: both operations are total functions into envelopes - the modelled
try/except of the source lets no exception escape - and every returned
envelope carries exactly one of the two shapes, a success payload or an
error payload, never both. -/
theorem envelope_contract (fs : FS) (base : PathC) (f : String) :
    (isErrorEnv (read_file fs base f) ∨ isReadSuccessEnv (read_file fs base f)) ∧
    ¬(isErrorEnv (read_file fs base f) ∧ isReadSuccessEnv (read_file fs base f)) ∧
    (isErrorEnv (list_files fs base) ∨ isListSuccessEnv (list_files fs base)) ∧
    ¬(isErrorEnv (list_files fs base) ∧ isListSuccessEnv (list_files fs base)) :=
  ⟨read_file_shape fs base f, not_error_and_read (read_file fs base f),
    list_files_shape fs base, not_error_and_list (list_files fs base)⟩

/-- C9: the resource adapter is an identity wrapper: the response bound to
the read identifier is the read_file envelope unchanged and the response
bound to the list identifier is the list_files envelope unchanged, with
no further validation, transformation or error translation. -/
theorem adapter_identity (fs : FS) (base : PathC) (f : String) :
    read_file_resource fs base f = read_file fs base f ∧
    list_files_resource fs base = list_files fs base :=
  ⟨rfl, rfl⟩

/-- C8: serving is stateless and idempotent: one request-response cycle
leaves the filesystem state unchanged, and any number of repetitions of
the same request against an unchanged filesystem yields the same
response every time. -/
theorem serve_stateless_idempotent (fs : FS) (base : PathC) (r : Request) (n : Nat) :
    (serve fs base r).2 = fs ∧
    serveMany fs base r n = List.replicate n (handle fs base r) := by
  refine ⟨rfl, ?_⟩
  induction n with
  | zero => rfl
  | succ k ih =>
    rw [List.replicate_succ]
    rw [serveMany]
    exact congrArg (List.cons (handle fs base r)) ih

end Filesys
